import Mathlib

/-!
Verification development for the namnyeong cinema reservation app (`app.py`).

The Python functions that manage the ticket ledger are embedded shallowly:
Python strings are Lean `String`s manipulated through their character lists,
the sqlite `tickets`/`schedule` tables are lists of rows, and the Flask
session is an explicit record.  Each definition mirrors one Python function
or code path of `app.py`; the Korean flash messages are kept verbatim.
-/

namespace Cinema

/-- ASCII decimal digit characters, as produced by Python `str(n)`. -/
def digitChar : Nat → Char
  | 0 => '0'
  | 1 => '1'
  | 2 => '2'
  | 3 => '3'
  | 4 => '4'
  | 5 => '5'
  | 6 => '6'
  | 7 => '7'
  | 8 => '8'
  | 9 => '9'
  | _ => '*'

/-- Fuel-driven decimal digit list of a natural number, most significant digit
first; `fuel = n + 1` always suffices (`digitsVal_natDigitsAux`). -/
def natDigitsAux : Nat → Nat → List Char
  | 0, _ => []
  | fuel + 1, n =>
    if n < 10 then [digitChar n] else natDigitsAux fuel (n / 10) ++ [digitChar (n % 10)]

/-- Python `str(n)` for a natural number. -/
def natStr (n : Nat) : String := String.mk (natDigitsAux (n + 1) n)

/-- Decimal value of a digit list (left inverse of `natDigitsAux`). -/
def digitsVal (l : List Char) : Nat := l.foldl (fun a c => 10 * a + (c.toNat - 48)) 0

/-- The characters removed by Python `str.strip()`. -/
def isPySpace (c : Char) : Bool :=
  c = ' ' || c = '\t' || c = '\n' || c = '\r' || c = '\x0b' || c = '\x0c'

/-- Remove trailing characters satisfying `p` (helper for Python `str.strip`). -/
def dropTrail (p : Char → Bool) : List Char → List Char
  | [] => []
  | c :: rest =>
    let r := dropTrail p rest
    if r = [] ∧ p c then [] else c :: r

/-- Python `str.strip()` with no argument: remove leading and trailing whitespace. -/
def pyStrip (s : String) : String :=
  String.mk (dropTrail isPySpace (s.data.dropWhile isPySpace))

/-- Helper for Python `str.split(sep)` with a one-character separator. -/
def splitChAux (sep : Char) : List Char → List Char → List (List Char)
  | [], acc => [acc.reverse]
  | c :: cs, acc =>
    if c = sep then acc.reverse :: splitChAux sep cs [] else splitChAux sep cs (c :: acc)

/-- Python `s.split(sep)` for a one-character separator (keeps empty pieces;
`"".split(sep) = [""]`). -/
def pySplit (sep : Char) (s : String) : List String :=
  (splitChAux sep s.data []).map String.mk

/-- ASCII lowering of one character (what `str.lower()` does on the inputs of
this app; non-ASCII letters are left unchanged). -/
def lowerChar (c : Char) : Char :=
  if 'A' ≤ c ∧ c ≤ 'Z' then Char.ofNat (c.toNat + 32) else c

/-- Python `s.lower()`. -/
def pyLower (s : String) : String := String.mk (s.data.map lowerChar)

/-- Python `s.zfill(2)` (identity from width 2 on; a leading sign is kept). -/
def zfill2 (s : String) : String :=
  if 2 ≤ s.data.length then s
  else match s.data with
    | [] => "00"
    | c :: cs => if c = '+' ∨ c = '-' then String.mk (c :: '0' :: cs) else String.mk ('0' :: c :: cs)

/-- Python `s[-2:]`. -/
def lastTwo (s : String) : String := String.mk (s.data.drop (s.data.length - 2))

/-- Zero-padded two-digit rendering, as `strftime("%y")`, `("%m")`, `("%d")`. -/
def pad2 (n : Nat) : String := if n < 10 then "0" ++ natStr n else natStr n

/-- A non-empty all-ASCII-digit character list. -/
def allDigits (l : List Char) : Bool := !l.isEmpty && l.all Char.isDigit

/-- Gregorian leap year rule used by `datetime`. -/
def isLeap (y : Nat) : Bool := y % 4 == 0 && (y % 100 != 0 || y % 400 == 0)

/-- Days in a month as validated by the `datetime` constructor. -/
def daysInMonth (y m : Nat) : Nat :=
  if m = 2 then (if isLeap y then 29 else 28)
  else if m = 4 ∨ m = 6 ∨ m = 9 ∨ m = 11 then 30
  else 31

/-- The year group of CPython `_strptime.py` for `%Y`: exactly four digits
(regex `\d\d\d\d`). -/
def yearPiece : List Char → Bool
  | [c1, c2, c3, c4] => c1.isDigit && c2.isDigit && c3.isDigit && c4.isDigit
  | _ => false

/-- The month group of CPython `_strptime.py` for `%m`: regex
`1[0-2]|0[1-9]|[1-9]` (one or two digits, value 1–12, no space padding). -/
def monthPiece : List Char → Bool
  | [c] => decide ('1' ≤ c ∧ c ≤ '9')
  | [c1, c2] =>
    decide ((c1 = '0' ∧ '1' ≤ c2 ∧ c2 ≤ '9') ∨ (c1 = '1' ∧ '0' ≤ c2 ∧ c2 ≤ '2'))
  | _ => false

/-- The day group of CPython `_strptime.py` for `%d`: regex
`3[01]|[12]\d|0[1-9]|[1-9]| [1-9]` — note that a space-padded day such as
`" 5"` is accepted. -/
def dayPiece : List Char → Bool
  | [c] => decide ('1' ≤ c ∧ c ≤ '9')
  | [c1, c2] =>
    decide ((c1 = '3' ∧ (c2 = '0' ∨ c2 = '1')) ∨
      ((c1 = '1' ∨ c1 = '2') ∧ c2.isDigit) ∨
      (c1 = '0' ∧ '1' ≤ c2 ∧ c2 ≤ '9') ∨
      (c1 = ' ' ∧ '1' ≤ c2 ∧ c2 ≤ '9'))
  | _ => false

/-- Semantics of `datetime.strptime(s, "%Y-%m-%d")`, following the regexes of
CPython's `_strptime.py`: exactly three dash-separated pieces where the year is
exactly four digits, the month matches `1[0-2]|0[1-9]|[1-9]`, and the day
matches `3[01]|[12]\d|0[1-9]|[1-9]| [1-9]` (space-padded day legal, read by
`int` which strips the blank); the `datetime` constructor then validates the
calendar date (year at least 1, day within the month).  Any other input
raises, which `make_ticket_id` catches. -/
def parseYMD (s : String) : Option (Nat × Nat × Nat) :=
  match splitChAux '-' s.data [] with
  | [ys, ms, ds] =>
    if yearPiece ys ∧ monthPiece ms ∧ dayPiece ds then
      let y := digitsVal ys
      let m := digitsVal ms
      let d := digitsVal (ds.dropWhile (fun c => c == ' '))
      if 1 ≤ y ∧ 1 ≤ d ∧ d ≤ daysInMonth y m then some (y, m, d) else none
    else none
  | _ => none

/-- The `TYPE_CODE` dict of `app.py`. -/
def TYPE_CODE (r : String) : Option String :=
  if r = "normal" then some "1"
  else if r = "group" then some "2"
  else if r = "teacher" then some "3"
  else none

/-- The code lookup `TYPE_CODE.get((rtype or "").lower(), "9")`. -/
def typeCode (rtype : String) : String := (TYPE_CODE (pyLower rtype)).getD "9"

/-- The `yy + mmdd` digits of `make_ticket_id`: `strftime("%y")`/`("%m%d")` on a
parsed date, otherwise the split-and-zfill fallback of the `except` branch. -/
def dateDigits (date_str : String) : String :=
  match parseYMD date_str with
  | some (y, m, d) => pad2 (y % 100) ++ (pad2 m ++ pad2 d)
  | none =>
    let parts := pySplit '-' date_str
    let yy := match parts with
      | [] => "00"
      | p :: _ => lastTwo p
    let mm := zfill2 (parts.getD 1 "00")
    let dd := zfill2 (parts.getD 2 "00")
    yy ++ (mm ++ dd)

/-- The base string `f"{code}{yy}{mmdd}{tail}"` of `make_ticket_id`; the student
id is dropped for `rtype == "teacher"` or when it is `None`/empty. -/
def ticketBase (rtype date_str : String) (student_id : Option String) : String :=
  let tail := if rtype = "teacher" ∨ student_id.getD "" = "" then "" else student_id.getD ""
  typeCode rtype ++ (dateDigits date_str ++ tail)

/-- The n-th candidate tried by the uniqueness loop of `make_ticket_id`
(`n = 1` is the bare base, then `f"{base}-{n}"` for `n ≥ 2`). -/
def candidateAt (base : String) (n : Nat) : String :=
  if n = 1 then base else base ++ "-" ++ natStr n

/-- The `while` loop of `make_ticket_id`, with explicit fuel; the loop of the
source terminates because the candidates are pairwise distinct and the ledger
is finite, and `ledger.length + 1` steps always reach a free candidate
(`tickLoop_spec` + `exists_free_candidate`). -/
def tickLoop (base : String) (ledger : List String) : Nat → Nat → String
  | 0, n => candidateAt base n
  | fuel + 1, n =>
    if candidateAt base n ∈ ledger then tickLoop base ledger fuel (n + 1)
    else candidateAt base n

/-- The function `make_ticket_id(rtype, date_str, student_id)`, checked against
the list of ticket ids currently in the ledger. -/
def make_ticket_id (rtype date_str : String) (student_id : Option String)
    (ledger : List String) : String :=
  tickLoop (ticketBase rtype date_str student_id) ledger (ledger.length + 1) 1

/-- Python `raw.replace("\r", "")` (removing a one-character pattern). -/
def stripCR (s : String) : String := String.mk (s.data.filter (fun c => c != '\r'))

/-- The part-collection loop of `normalize_member_names`: split the input into
lines, split each line on commas, strip every piece, keep the non-empty ones. -/
def memberParts (raw : String) : List String :=
  (((pySplit '\n' (stripCR raw)).map (fun line => (pySplit ',' line).map pyStrip)).flatten).filter
    (fun n => n != "")

/-- The `seen`/`uniq` loop of `normalize_member_names`: drop duplicates, keeping
the first occurrence of each name. -/
def uniqFirstAux (seen : List String) : List String → List String
  | [] => []
  | n :: rest =>
    if n ∈ seen then uniqFirstAux seen rest else n :: uniqFirstAux (n :: seen) rest

/-- Python `",".join(l)`. -/
def joinComma : List String → String
  | [] => ""
  | [s] => s
  | s :: rest => s ++ "," ++ joinComma rest

/-- The function `normalize_member_names(raw)` from `app.py`. -/
def normalize_member_names (raw : String) : String :=
  if raw = "" then "" else joinComma (uniqFirstAux [] (memberParts raw))

/-- Python `int(s)` on the strings this app passes (optional sign, ASCII
digits); `none` models the `ValueError` that `reserve` catches. -/
def pyInt (s : String) : Option Int :=
  match (pyStrip s).data with
  | '+' :: rest => if allDigits rest then some (digitsVal rest) else none
  | '-' :: rest => if allDigits rest then some (-(digitsVal rest : Int)) else none
  | l => if allDigits l then some (digitsVal l) else none

/-- A catalog entry, reduced to the two fields `reserve` snapshots. -/
structure Movie where
  id : String
  title : String
deriving Repr, DecidableEq

/-- One row of the `schedule` table. -/
structure Sched where
  date : String
  time : String
  hall : String
deriving Repr, DecidableEq

/-- One row of the `tickets` table, with the columns `reserve` inserts;
a `none` field is an SQL `NULL`. -/
structure Ticket where
  id : String
  type : String
  movie_id : Option String
  movie_title : Option String
  date : String
  time : String
  hall : String
  group_name : Option String
  group_size : Option Int
  teacher_name : Option String
  class_info : Option String
  member_names : Option String
  student_id : Option String
  student_name : Option String
  status : String
  created_at : String
deriving Repr, DecidableEq

/-- The POST form fields read by `reserve`; `none` is an absent field. -/
structure Form where
  date : Option String
  student_id : Option String
  student_name : Option String
  group_name : Option String
  group_size : Option String
  member_names : Option String
  teacher_name : Option String
  class_info : Option String
deriving Repr, DecidableEq

/-- Modelled from the spec: `BOOK_TYPES` is imported from `movies.py`, which is
not among the sources; §1–§3 of the spec fix exactly three booking types
(normal individual, group, teacher-led). -/
def BOOK_TYPES : List String := ["normal", "group", "teacher"]

/-- The lookup `get_schedule_for(date)`: the row of the `schedule` table keyed
by `date` (first match; `date` is the primary key). -/
def get_schedule_for (schedule : List Sched) (d : String) : Option Sched :=
  schedule.find? (fun r => r.date == d)

/-- Outcome of a `reserve` POST: a flash message plus redirect back to the form
(nothing inserted), or a redirect to the detail page of the inserted ticket. -/
inductive ReserveOutcome where
  | rejected (msg : String)
  | admitted (t : Ticket)
deriving Repr, DecidableEq

/-- The POST branch of the `reserve` view of `app.py`: type gate, teacher-auth
gate, schedule gates, per-type field validation, ticket-id generation, and the
assembled row.  `movie` is the result of the upstream `get_movie` resolution
and `now` the `now_iso()` timestamp. -/
def reserve (rtypeRaw : String) (teacherAuth : Bool) (schedule : List Sched)
    (ledger : List Ticket) (movie : Option Movie) (form : Form) (now : String) :
    ReserveOutcome :=
  let rtype := pyLower rtypeRaw
  if rtype ∉ BOOK_TYPES.map pyLower then .rejected "잘못된 예약 유형입니다." else
  if rtype = "teacher" ∧ ¬teacherAuth then .rejected "교사 전용 예약입니다. 인증해 주세요." else
  if schedule.isEmpty then .rejected "현재 예약 가능한 날짜가 없습니다. (관리자에게 문의)" else
  let date := pyStrip (form.date.getD "")
  if date = "" then .rejected "날짜를 선택하세요." else
  match get_schedule_for schedule date with
  | none => .rejected "선택한 날짜는 예약할 수 없습니다."
  | some sche =>
    let student_id := pyStrip (form.student_id.getD "")
    let student_name := pyStrip (form.student_name.getD "")
    if rtype = "normal" ∧ student_id = "" then .rejected "학번을 입력하세요." else
    if rtype = "normal" ∧ student_name = "" then .rejected "이름을 입력하세요." else
    if rtype = "teacher" ∧ pyStrip (form.teacher_name.getD "") = "" then
      .rejected "담당 교사 성함을 입력하세요." else
    let group_name := if rtype = "group" then some (pyStrip (form.group_name.getD "")) else none
    let group_size :=
      if rtype = "group" then some ((pyInt (form.group_size.getD "0")).getD 0) else none
    let member_names :=
      if rtype = "group" then normalize_member_names (form.member_names.getD "") else ""
    let teacher_name := if rtype = "teacher" then some (pyStrip (form.teacher_name.getD "")) else none
    let class_info := if rtype = "teacher" then some (pyStrip (form.class_info.getD "")) else none
    let sid : Option String := if rtype = "teacher" ∧ student_id = "" then none else some student_id
    let sname : Option String :=
      if rtype = "teacher" ∧ student_name = "" then none else some student_name
    let status := if rtype = "normal" then "approved" else "pending"
    let t_id := make_ticket_id rtype date (if rtype = "teacher" then none else sid)
      (ledger.map Ticket.id)
    .admitted {
      id := t_id, type := rtype,
      movie_id := movie.map Movie.id, movie_title := movie.map Movie.title,
      date := date, time := sche.time, hall := sche.hall,
      group_name := group_name, group_size := group_size,
      teacher_name := teacher_name, class_info := class_info,
      member_names := if rtype = "group" then some member_names else none,
      student_id := sid, student_name := sname,
      status := status, created_at := now }

/-- The `tickets` table after the `reserve` POST: unchanged on rejection, one
appended row on success. -/
def reserveLedger (rtypeRaw : String) (teacherAuth : Bool) (schedule : List Sched)
    (ledger : List Ticket) (movie : Option Movie) (form : Form) (now : String) : List Ticket :=
  match reserve rtypeRaw teacherAuth schedule ledger movie form now with
  | .rejected _ => ledger
  | .admitted t => ledger ++ [t]

/-- The handler `admin_set_status`: reject a target outside the three statuses
(error flash, no update), otherwise `UPDATE tickets SET status=? WHERE id=?`.
The boolean is `true` exactly when the update ran. -/
def admin_set_status (tickets : List Ticket) (tid : String) (status : Option String) :
    List Ticket × Bool :=
  match status with
  | some s =>
    if s = "pending" ∨ s = "approved" ∨ s = "rejected" then
      (tickets.map (fun t => if t.id = tid then { t with status := s } else t), true)
    else (tickets, false)
  | none => (tickets, false)

/-- The session keys touched by `teacher_login`: `teacher_attempts` (absent key
read as 0), `teacher_lock_until`, `teacher_authenticated`. -/
structure TeacherSession where
  teacher_attempts : Nat
  teacher_lock_until : Option Nat
  teacher_authenticated : Bool
deriving Repr, DecidableEq

/-- What the `teacher_login` POST handler renders. -/
inductive LoginView where
  | locked
  | success
  | lockedNow
  | failure
deriving Repr, DecidableEq

/-- The code-comparison part of the `teacher_login` POST handler (reached when
no active lock window covers `now`). -/
def teacherLoginPost (passcode : String) (st : TeacherSession) (now : Nat)
    (code : Option String) : TeacherSession × LoginView :=
  if pyStrip (code.getD "") = passcode then
    ({ teacher_attempts := 0, teacher_lock_until := none, teacher_authenticated := true },
      .success)
  else
    let attempts := st.teacher_attempts + 1
    if 5 ≤ attempts then
      ({ st with teacher_attempts := attempts, teacher_lock_until := some (now + 300) },
        .lockedNow)
    else
      ({ st with teacher_attempts := attempts }, .failure)

/-- The `teacher_login` POST handler: an unexpired lock window refuses the
attempt before the code is even read; otherwise the code is compared. -/
def teacher_login (passcode : String) (st : TeacherSession) (now : Nat)
    (code : Option String) : TeacherSession × LoginView :=
  match st.teacher_lock_until with
  | some l =>
    if l ≠ 0 ∧ now < l then (st, .locked) else teacherLoginPost passcode st now code
  | none => teacherLoginPost passcode st now code

/-- Run a sequence of `teacher_login` POSTs, each with its own clock reading
and submitted code. -/
def runLogin (passcode : String) : TeacherSession → List (Nat × Option String) → TeacherSession
  | st, [] => st
  | st, (now, code) :: rest => runLogin passcode (teacher_login passcode st now code).1 rest

/-- A concrete ledger row used by witnesses. -/
def sampleTicket : Ticket :=
  { id := "125101820413", type := "normal", movie_id := none, movie_title := none,
    date := "2025-10-18", time := "10:00", hall := "A", group_name := none, group_size := none,
    teacher_name := none, class_info := none, member_names := none,
    student_id := some "20413", student_name := some "김", status := "pending",
    created_at := "T" }

/-- Splitting on a character class (helper for the spec-worded normalization). -/
def splitPAux (p : Char → Bool) : List Char → List Char → List (List Char)
  | [], acc => [acc.reverse]
  | c :: cs, acc =>
    if p c then acc.reverse :: splitPAux p cs [] else splitPAux p cs (c :: acc)

/-- The member-list normalization as the SPEC sentence words it, for comparison
with the source's `normalize_member_names`: split the input on comma,
whitespace and newline separators, trim each resulting name, and drop
duplicates keeping first occurrences. -/
def claimNormalize (raw : String) : String :=
  joinComma (uniqFirstAux []
    (((splitPAux (fun c => c = ',' || isPySpace c) raw.data []).map
      (fun piece => pyStrip (String.mk piece))).filter (fun n => n != "")))

/-! ### Lemmas about the decimal rendering and the uniqueness loop -/

theorem digitsVal_append_digit (l : List Char) (c : Char) :
    digitsVal (l ++ [c]) = 10 * digitsVal l + (c.toNat - 48) := by
  simp [digitsVal, List.foldl_append]

theorem unDigit_digitChar (k : Nat) (h : k < 10) : (digitChar k).toNat - 48 = k := by
  interval_cases k <;> decide

theorem digitsVal_natDigitsAux :
    ∀ fuel n, n < fuel → digitsVal (natDigitsAux fuel n) = n := by
  intro fuel
  induction fuel with
  | zero => intro n h; omega
  | succ f ih =>
    intro n h
    by_cases h10 : n < 10
    · simp only [natDigitsAux, if_pos h10]
      interval_cases n <;> decide
    · simp only [natDigitsAux, if_neg h10]
      rw [digitsVal_append_digit, ih (n / 10) (by omega),
        unDigit_digitChar _ (Nat.mod_lt _ (by omega))]
      omega

theorem digitsVal_natStr (n : Nat) : digitsVal (natStr n).data = n :=
  digitsVal_natDigitsAux (n + 1) n (Nat.lt_succ_self n)

theorem natStr_inj {m n : Nat} (h : natStr m = natStr n) : m = n := by
  have h2 := congrArg (fun s => digitsVal s.data) h
  simpa [digitsVal_natStr] using h2

theorem natDigitsAux_ne_nil (fuel n : Nat) : natDigitsAux (fuel + 1) n ≠ [] := by
  by_cases h : n < 10 <;> simp [natDigitsAux, h]

theorem natStr_ne_empty (n : Nat) : (natStr n).data ≠ [] := natDigitsAux_ne_nil n n

theorem candidateAt_inj {base : String} {m n : Nat}
    (h : candidateAt base m = candidateAt base n) : m = n := by
  have hdash : ("-" : String).data = ['-'] := rfl
  by_cases h1 : m = 1 <;> by_cases h2 : n = 1
  · omega
  · exfalso
    rw [candidateAt, candidateAt, if_pos h1, if_neg h2] at h
    have hlen := congrArg (fun s => s.data.length) h
    have hpos : 0 < (natStr n).data.length := List.length_pos.mpr (natStr_ne_empty n)
    simp [String.data_append, hdash] at hlen
  · exfalso
    rw [candidateAt, candidateAt, if_neg h1, if_pos h2] at h
    have hlen := congrArg (fun s => s.data.length) h
    have hpos : 0 < (natStr m).data.length := List.length_pos.mpr (natStr_ne_empty m)
    simp [String.data_append, hdash] at hlen
  · rw [candidateAt, candidateAt, if_neg h1, if_neg h2] at h
    have hdata := congrArg String.data h
    simp only [String.data_append, hdash] at hdata
    have hdata2 : (base.data ++ ['-']) ++ (natStr m).data
        = (base.data ++ ['-']) ++ (natStr n).data := by
      simpa [List.append_assoc] using hdata
    exact natStr_inj (String.ext (List.append_cancel_left hdata2))

theorem exists_free_candidate (base : String) (ledger : List String) :
    ∃ i, i < ledger.length + 1 ∧ candidateAt base (1 + i) ∉ ledger := by
  by_contra hc
  push_neg at hc
  have hinj : Function.Injective
      (fun i : Fin (ledger.length + 1) => candidateAt base (1 + i)) := by
    intro a b hab
    have hab2 := candidateAt_inj hab
    exact Fin.ext (by omega)
  have hsub : (Finset.univ.image (fun i : Fin (ledger.length + 1) => candidateAt base (1 + i)))
      ⊆ ledger.toFinset := by
    intro x hx
    simp only [Finset.mem_image] at hx
    obtain ⟨i, _, rfl⟩ := hx
    exact List.mem_toFinset.mpr (hc i i.isLt)
  have h1 : (Finset.univ.image
      (fun i : Fin (ledger.length + 1) => candidateAt base (1 + i))).card
      = ledger.length + 1 := by
    rw [Finset.card_image_of_injective _ hinj, Finset.card_univ, Fintype.card_fin]
  have h2 := Finset.card_le_card hsub
  have h3 := List.toFinset_card_le ledger
  omega

theorem tickLoop_spec (base : String) (ledger : List String) :
    ∀ fuel n, (∃ i, i < fuel ∧ candidateAt base (n + i) ∉ ledger) →
      ∃ i, i < fuel ∧ tickLoop base ledger fuel n = candidateAt base (n + i) ∧
        candidateAt base (n + i) ∉ ledger ∧
        ∀ j, j < i → candidateAt base (n + j) ∈ ledger := by
  intro fuel
  induction fuel with
  | zero =>
    intro n h
    obtain ⟨i, hi, _⟩ := h
    omega
  | succ f ih =>
    intro n h
    obtain ⟨i, hi, hfree⟩ := h
    by_cases hmem : candidateAt base n ∈ ledger
    · have hi0 : i ≠ 0 := by
        rintro rfl
        rw [Nat.add_zero] at hfree
        exact hfree hmem
      obtain ⟨i, rfl⟩ : ∃ k, i = k + 1 := ⟨i - 1, by omega⟩
      have hex : ∃ k, k < f ∧ candidateAt base ((n + 1) + k) ∉ ledger :=
        ⟨i, by omega, by rw [show n + 1 + i = n + (i + 1) by omega]; exact hfree⟩
      obtain ⟨k, hk, heq, hfree2, hmin⟩ := ih (n + 1) hex
      refine ⟨k + 1, by omega, ?_, ?_, ?_⟩
      · rw [tickLoop, if_pos hmem, heq]
        congr 1
        omega
      · rw [show n + (k + 1) = n + 1 + k by omega]
        exact hfree2
      · intro j hj
        cases j with
        | zero => simpa using hmem
        | succ j2 =>
          rw [show n + (j2 + 1) = n + 1 + j2 by omega]
          exact hmin j2 (by omega)
    · exact ⟨0, by omega, by rw [tickLoop, if_neg hmem, Nat.add_zero],
        by rw [Nat.add_zero]; exact hmem, by omega⟩

theorem make_ticket_id_spec (rtype date_str : String) (student_id : Option String)
    (ledger : List String) :
    ∃ k, 1 ≤ k ∧
      make_ticket_id rtype date_str student_id ledger
        = candidateAt (ticketBase rtype date_str student_id) k ∧
      candidateAt (ticketBase rtype date_str student_id) k ∉ ledger ∧
      ∀ j, 1 ≤ j → j < k → candidateAt (ticketBase rtype date_str student_id) j ∈ ledger := by
  obtain ⟨i, hi, hfree⟩ := exists_free_candidate (ticketBase rtype date_str student_id) ledger
  obtain ⟨k, hk, heq, hfree2, hmin⟩ :=
    tickLoop_spec (ticketBase rtype date_str student_id) ledger (ledger.length + 1) 1
      ⟨i, hi, hfree⟩
  refine ⟨1 + k, by omega, heq, hfree2, ?_⟩
  intro j hj1 hjk
  have hj := hmin (j - 1) (by omega)
  rw [show 1 + (j - 1) = j by omega] at hj
  exact hj

theorem make_ticket_id_not_mem (rtype date_str : String) (student_id : Option String)
    (ledger : List String) : make_ticket_id rtype date_str student_id ledger ∉ ledger := by
  obtain ⟨k, _, heq, hfree, _⟩ := make_ticket_id_spec rtype date_str student_id ledger
  rw [heq]
  exact hfree

theorem make_ticket_id_of_base_free (rtype date_str : String) (student_id : Option String)
    (ledger : List String) (h : ticketBase rtype date_str student_id ∉ ledger) :
    make_ticket_id rtype date_str student_id ledger = ticketBase rtype date_str student_id := by
  obtain ⟨k, hk1, heq, hfree, hmin⟩ := make_ticket_id_spec rtype date_str student_id ledger
  have hk : k = 1 := by
    by_contra hne
    have h1 := hmin 1 le_rfl (by omega)
    rw [candidateAt, if_pos rfl] at h1
    exact h h1
  rw [heq, hk, candidateAt, if_pos rfl]

theorem typeCode_cases (rtype : String) :
    typeCode rtype = "1" ∨ typeCode rtype = "2" ∨ typeCode rtype = "3" ∨ typeCode rtype = "9" := by
  unfold typeCode TYPE_CODE
  by_cases h1 : pyLower rtype = "normal"
  · simp [h1]
  · by_cases h2 : pyLower rtype = "group"
    · simp [h1, h2]
    · by_cases h3 : pyLower rtype = "teacher"
      · simp [h1, h2, h3]
      · simp [h1, h2, h3]

theorem typeCode_length (rtype : String) : (typeCode rtype).data.length = 1 := by
  rcases typeCode_cases rtype with h | h | h | h <;> rw [h] <;> decide

theorem ticketBase_teacher (date_str : String) (sid : Option String) :
    ticketBase "teacher" date_str sid = typeCode "teacher" ++ dateDigits date_str := by
  simp [ticketBase, String.append_empty]

theorem ticketBase_empty_sid (rtype date_str : String) (sid : Option String)
    (h : sid.getD "" = "") :
    ticketBase rtype date_str sid = typeCode rtype ++ dateDigits date_str := by
  simp [ticketBase, h, String.append_empty]

theorem ticketBase_data (rtype date_str : String) (sid : Option String) :
    (ticketBase rtype date_str sid).data
      = (typeCode rtype).data ++ ((dateDigits date_str).data ++
          (if rtype = "teacher" ∨ sid.getD "" = "" then "" else sid.getD "").data) := by
  simp [ticketBase, String.data_append]

/-- C1: for a valid `(type, date, studentId)` triple the generated ticket id is
the one-digit type code (`normal=1`, `group=2`, `teacher=3`, unknown `9`),
the 2-digit year, the 4-digit month+day and the representative identifier;
if that base is taken, the first free `-n` suffix (`n = 2, 3, …`) is appended,
so the returned id is never already in the ledger.  Concretely,
`(normal, 2025-10-18, 20413)` gives `125101820413`, and `125101820413-2`
against a ledger already holding the first id. -/
theorem C1_make_ticket_id (rtype date_str : String) (sid : Option String)
    (ledger : List String) (y m d : Nat)
    (hp : parseYMD date_str = some (y, m, d)) :
    (ticketBase rtype date_str sid
      = typeCode rtype ++ ((pad2 (y % 100) ++ (pad2 m ++ pad2 d)) ++
          (if rtype = "teacher" ∨ sid.getD "" = "" then "" else sid.getD ""))) ∧
    typeCode "normal" = "1" ∧ typeCode "group" = "2" ∧ typeCode "teacher" = "3" ∧
    typeCode "staff" = "9" ∧
    make_ticket_id rtype date_str sid ledger ∉ ledger ∧
    (ticketBase rtype date_str sid ∉ ledger →
      make_ticket_id rtype date_str sid ledger = ticketBase rtype date_str sid) ∧
    (∃ k, 1 ≤ k ∧
      make_ticket_id rtype date_str sid ledger = candidateAt (ticketBase rtype date_str sid) k ∧
      candidateAt (ticketBase rtype date_str sid) k ∉ ledger ∧
      ∀ j, 1 ≤ j → j < k → candidateAt (ticketBase rtype date_str sid) j ∈ ledger) ∧
    make_ticket_id "normal" "2025-10-18" (some "20413") [] = "125101820413" ∧
    make_ticket_id "normal" "2025-10-18" (some "20413") ["125101820413"] = "125101820413-2" := by
  refine ⟨?_, by decide, by decide, by decide, by decide,
    make_ticket_id_not_mem rtype date_str sid ledger,
    make_ticket_id_of_base_free rtype date_str sid ledger,
    make_ticket_id_spec rtype date_str sid ledger, by decide, by decide⟩
  rw [ticketBase, dateDigits, hp]

theorem C1_make_ticket_id_witness :
    parseYMD "2025-10-18" = some (2025, 10, 18) ∧
    make_ticket_id "normal" "2025-10-18" (some "20413") ["125101820413"] ∉ ["125101820413"] := by
  refine ⟨by decide, ?_⟩
  exact (C1_make_ticket_id "normal" "2025-10-18" (some "20413") ["125101820413"] 2025 10 18
    (by decide)).2.2.2.2.2.1

/-- C3: for a teacher booking the representative identifier is never appended:
whatever `student_id` is supplied, the base is exactly the type code followed
by the date digits, and the generated id does not depend on the student id at
all (and `reserve` additionally passes `None` for teacher bookings). -/
theorem C3_teacher_id_no_student (date_str : String) (sid sid2 : Option String)
    (ledger : List String) :
    ticketBase "teacher" date_str sid = typeCode "teacher" ++ dateDigits date_str ∧
    make_ticket_id "teacher" date_str sid ledger = make_ticket_id "teacher" date_str sid2 ledger ∧
    (ticketBase "teacher" date_str sid ∉ ledger →
      make_ticket_id "teacher" date_str sid ledger = typeCode "teacher" ++ dateDigits date_str) := by
  refine ⟨ticketBase_teacher date_str sid, ?_, ?_⟩
  · unfold make_ticket_id
    rw [ticketBase_teacher date_str sid, ticketBase_teacher date_str sid2]
  · intro hfree
    rw [make_ticket_id_of_base_free "teacher" date_str sid ledger hfree,
      ticketBase_teacher date_str sid]

theorem C3_teacher_id_no_student_witness :
    make_ticket_id "teacher" "2025-10-18" (some "20413") [] = "3251018" ∧
    make_ticket_id "teacher" "2025-10-18" none [] = "3251018" := by
  have h := C3_teacher_id_no_student "2025-10-18" (some "20413") none []
  have h2 := h.2.2 (by decide)
  constructor
  · rw [h2]; decide
  · rw [← h.2.1, h2]; decide

/-- C9: the generator never raises: it is total on every input string, and when
the date does not parse as `YYYY-MM-DD` it uses the `except` fallback, splitting
on `-` and zero-filling the month/day pieces (an absent piece becomes `"00"`).
Concrete fallback inputs: an invalid calendar date, the empty string, and a
dash-free string.  The `strptime` boundary is placed exactly as CPython places
it: a 1-digit year such as `"7-10-18"` fails `%Y` (exactly four digits) and
takes the fallback, giving `yy = "7"`, while a space-padded day such as
`"2025-10- 5"` is accepted by `%d` and takes the parsed path, giving `"251005"`. -/
theorem C9_date_fallback (rtype date_str : String) (sid : Option String)
    (ledger : List String) (h : parseYMD date_str = none) :
    dateDigits date_str =
      (match pySplit '-' date_str with
        | [] => "00"
        | p :: _ => lastTwo p) ++
      (zfill2 ((pySplit '-' date_str).getD 1 "00") ++ zfill2 ((pySplit '-' date_str).getD 2 "00")) ∧
    make_ticket_id rtype date_str sid ledger
      = tickLoop (typeCode rtype ++ (dateDigits date_str ++
          (if rtype = "teacher" ∨ sid.getD "" = "" then "" else sid.getD "")))
          ledger (ledger.length + 1) 1 ∧
    make_ticket_id "normal" "2025-13-99" none [] = "1251399" ∧
    make_ticket_id "normal" "" none [] = "10000" ∧
    make_ticket_id "normal" "bogus" (some "7") [] = "1us00007" ∧
    parseYMD "7-10-18" = none ∧
    make_ticket_id "normal" "7-10-18" (some "20413") [] = "17101820413" ∧
    parseYMD "2025-10- 5" = some (2025, 10, 5) ∧
    make_ticket_id "normal" "2025-10- 5" (some "20413") [] = "125100520413" := by
  refine ⟨?_, rfl, by decide, by decide, by decide, by decide, by decide, by decide, by decide⟩
  rw [dateDigits, h]

theorem C9_date_fallback_witness :
    parseYMD "2025-13-99" = none ∧
    dateDigits "2025-13-99" = "25" ++ ("13" ++ "99") := by
  refine ⟨by decide, ?_⟩
  have h := (C9_date_fallback "normal" "2025-13-99" none [] (by decide)).1
  rw [h]
  decide

/-- C10: for a non-teacher type with a `None` or empty representative id the
tail is omitted as well, so the base is just the type code plus the date
digits — the same shape as a teacher id for that date (equal length, equal
from the second character on); and the bases of two distinct known booking
types can never be equal (they differ in the leading code digit), so only the
uniqueness-suffix loop ever has to disambiguate ids. -/
theorem C10_empty_sid_same_shape (rtype date_str : String) (sid : Option String)
    (_h1 : rtype ≠ "teacher") (h2 : sid = none ∨ sid = some "") :
    ticketBase rtype date_str sid = typeCode rtype ++ dateDigits date_str ∧
    (ticketBase rtype date_str sid).data.length
      = (ticketBase "teacher" date_str sid).data.length ∧
    (ticketBase rtype date_str sid).data.tail = (ticketBase "teacher" date_str sid).data.tail ∧
    (∀ (r1 r2 : String) (sid1 sid2 : Option String) (d1 d2 : String),
      r1 ∈ BOOK_TYPES → r2 ∈ BOOK_TYPES → r1 ≠ r2 →
      ticketBase r1 d1 sid1 ≠ ticketBase r2 d2 sid2) := by
  have hsid : sid.getD "" = "" := by rcases h2 with rfl | rfl <;> rfl
  have hbase := ticketBase_empty_sid rtype date_str sid hsid
  have hteach := ticketBase_teacher date_str sid
  refine ⟨hbase, ?_, ?_, ?_⟩
  · rw [hbase, hteach]
    simp only [String.data_append, List.length_append, typeCode_length]
  · rw [hbase, hteach]
    have ht3 : typeCode "teacher" = "3" := by decide
    have d3e : ("3" : String).data = ['3'] := rfl
    have d1e : ("1" : String).data = ['1'] := rfl
    have d2e : ("2" : String).data = ['2'] := rfl
    have d9e : ("9" : String).data = ['9'] := rfl
    rw [ht3]
    rcases typeCode_cases rtype with h | h | h | h <;> rw [h] <;>
      simp [String.data_append, d1e, d2e, d3e, d9e]
  · intro r1 r2 sid1 sid2 d1 d2 hr1 hr2 hne heq
    simp only [BOOK_TYPES, List.mem_cons, List.not_mem_nil, or_false] at hr1 hr2
    have e1 : typeCode "normal" = "1" := by decide
    have e2 : typeCode "group" = "2" := by decide
    have e3 : typeCode "teacher" = "3" := by decide
    have d1e : ("1" : String).data = ['1'] := rfl
    have d2e : ("2" : String).data = ['2'] := rfl
    have d3e : ("3" : String).data = ['3'] := rfl
    have hdata := congrArg String.data heq
    rw [ticketBase_data, ticketBase_data] at hdata
    rcases hr1 with rfl | rfl | rfl <;> rcases hr2 with rfl | rfl | rfl <;>
      first
        | exact hne rfl
        | simp [e1, e2, e3, d1e, d2e, d3e] at hdata

theorem C10_empty_sid_same_shape_witness :
    ticketBase "normal" "2025-10-18" none = "1251018" ∧
    ticketBase "teacher" "2025-10-18" none = "3251018" := by
  have h := (C10_empty_sid_same_shape "normal" "2025-10-18" none (by decide)
    (Or.inl rfl)).1
  constructor
  · rw [h]; decide
  · decide

/-- C6: a target status outside `{pending, approved, rejected}` (or an absent
form field) leaves every stored ticket unchanged and only flashes an error,
while a target inside the set overwrites the status column of the addressed
ticket unconditionally. -/
theorem C6_admin_set_status (tickets : List Ticket) (tid : String) (status : Option String) :
    ((∀ s, status = some s → s ≠ "pending" ∧ s ≠ "approved" ∧ s ≠ "rejected") →
      admin_set_status tickets tid status = (tickets, false)) ∧
    ∀ s, status = some s → (s = "pending" ∨ s = "approved" ∨ s = "rejected") →
      admin_set_status tickets tid status
        = (tickets.map (fun t => if t.id = tid then { t with status := s } else t), true) := by
  constructor
  · intro h
    match status with
    | none => rfl
    | some s =>
      have hs := h s rfl
      simp [admin_set_status, hs.1, hs.2.1, hs.2.2]
  · rintro s rfl hvalid
    show (if s = "pending" ∨ s = "approved" ∨ s = "rejected" then _ else _) = _
    rw [if_pos hvalid]

theorem C6_admin_set_status_witness :
    admin_set_status [sampleTicket] "125101820413" (some "bogus") = ([sampleTicket], false) ∧
    admin_set_status [sampleTicket] "125101820413" (some "approved")
      = ([{ sampleTicket with status := "approved" }], true) := by
  constructor
  · exact (C6_admin_set_status [sampleTicket] "125101820413" (some "bogus")).1
      (by rintro s hs; cases hs; exact ⟨by decide, by decide, by decide⟩)
  · have h := (C6_admin_set_status [sampleTicket] "125101820413" (some "approved")).2
      "approved" rfl (Or.inr (Or.inl rfl))
    rw [h]
    decide

/-- C7: five consecutive wrong passcode submissions in one session set a
300-second lock counted from the fifth failure; while the lock is unexpired
every further attempt — whatever code it carries, even the correct one — is
refused with the session unchanged (the authenticated flag is never set); and
a correct submission while no lock is set succeeds and clears the failure
counter. -/
theorem C7_teacher_lockout (p : String) (t1 t2 t3 t4 t5 now : Nat)
    (c1 c2 c3 c4 c5 c6 : Option String)
    (h1 : pyStrip (c1.getD "") ≠ p) (h2 : pyStrip (c2.getD "") ≠ p)
    (h3 : pyStrip (c3.getD "") ≠ p) (h4 : pyStrip (c4.getD "") ≠ p)
    (h5 : pyStrip (c5.getD "") ≠ p) (hnow : now < t5 + 300) :
    runLogin p ⟨0, none, false⟩ [(t1, c1), (t2, c2), (t3, c3), (t4, c4), (t5, c5)]
      = ⟨5, some (t5 + 300), false⟩ ∧
    teacher_login p ⟨5, some (t5 + 300), false⟩ now c6
      = (⟨5, some (t5 + 300), false⟩, .locked) ∧
    (∀ (st : TeacherSession) (now2 : Nat) (code : Option String),
      st.teacher_lock_until = none → pyStrip (code.getD "") = p →
      teacher_login p st now2 code = (⟨0, none, true⟩, .success)) := by
  refine ⟨?_, ?_, ?_⟩
  · simp [runLogin, teacher_login, teacherLoginPost, h1, h2, h3, h4, h5]
  · rw [teacher_login]
    simp only []
    rw [if_pos ⟨by omega, hnow⟩]
  · intro st now2 code hlock hcode
    rw [teacher_login, hlock, teacherLoginPost, if_pos hcode]

theorem C7_teacher_lockout_witness :
    runLogin "pw" ⟨0, none, false⟩
      [(0, some "x"), (1, some "x"), (2, some "x"), (3, some "x"), (4, some "x")]
      = ⟨5, some 304, false⟩ ∧
    teacher_login "pw" ⟨5, some 304, false⟩ 100 (some "pw") = (⟨5, some 304, false⟩, .locked) ∧
    teacher_login "pw" ⟨3, none, false⟩ 100 (some "pw") = (⟨0, none, true⟩, .success) := by
  have h := C7_teacher_lockout "pw" 0 1 2 3 4 100 (some "x") (some "x") (some "x") (some "x")
    (some "x") (some "pw") (by decide) (by decide) (by decide) (by decide) (by decide)
    (by omega)
  exact ⟨h.1, h.2.1, h.2.2 ⟨3, none, false⟩ 100 (some "pw") rfl (by decide)⟩

theorem get_schedule_for_ne_nil {schedule : List Sched} {d : String} {sche : Sched}
    (h : get_schedule_for schedule d = some sche) : schedule.isEmpty = false := by
  cases schedule with
  | nil => simp [get_schedule_for] at h
  | cons a rest => rfl

/-- C4: a normal booking with non-empty (stripped) student id and name on a
scheduled date is admitted and appended to the ledger with status `approved`;
with either field empty, it is rejected with a validation flash and the ledger
is untouched. -/
theorem C4_normal_admission (teacherAuth : Bool) (schedule : List Sched)
    (ledger : List Ticket) (movie : Option Movie) (form : Form) (now : String) (sche : Sched)
    (hd : pyStrip (form.date.getD "") ≠ "")
    (hs : get_schedule_for schedule (pyStrip (form.date.getD "")) = some sche) :
    ((pyStrip (form.student_id.getD "") ≠ "" ∧ pyStrip (form.student_name.getD "") ≠ "") →
      ∃ tk, reserve "normal" teacherAuth schedule ledger movie form now = .admitted tk ∧
        tk.status = "approved" ∧ tk.type = "normal" ∧
        reserveLedger "normal" teacherAuth schedule ledger movie form now = ledger ++ [tk]) ∧
    ((pyStrip (form.student_id.getD "") = "" ∨ pyStrip (form.student_name.getD "") = "") →
      (∃ msg, reserve "normal" teacherAuth schedule ledger movie form now = .rejected msg) ∧
      reserveLedger "normal" teacherAuth schedule ledger movie form now = ledger) := by
  have hlow : pyLower "normal" = "normal" := by decide
  have hne := get_schedule_for_ne_nil hs
  constructor
  · rintro ⟨hsid, hsname⟩
    have hres : reserve "normal" teacherAuth schedule ledger movie form now = .admitted
        { id := make_ticket_id "normal" (pyStrip (form.date.getD ""))
            (some (pyStrip (form.student_id.getD ""))) (ledger.map Ticket.id),
          type := "normal",
          movie_id := movie.map Movie.id, movie_title := movie.map Movie.title,
          date := pyStrip (form.date.getD ""), time := sche.time, hall := sche.hall,
          group_name := none, group_size := none, teacher_name := none, class_info := none,
          member_names := none,
          student_id := some (pyStrip (form.student_id.getD "")),
          student_name := some (pyStrip (form.student_name.getD "")),
          status := "approved", created_at := now } := by
      simp [reserve, BOOK_TYPES, hlow, hne, hd, hs, hsid, hsname]
    exact ⟨_, hres, rfl, rfl, by unfold reserveLedger; rw [hres]⟩
  · intro hmiss
    have hres : ∃ msg, reserve "normal" teacherAuth schedule ledger movie form now
        = .rejected msg := by
      by_cases hsid : pyStrip (form.student_id.getD "") = ""
      · exact ⟨"학번을 입력하세요.", by simp [reserve, BOOK_TYPES, hlow, hne, hd, hs, hsid]⟩
      · have hsn : pyStrip (form.student_name.getD "") = "" := by tauto
        exact ⟨"이름을 입력하세요.",
          by simp [reserve, BOOK_TYPES, hlow, hne, hd, hs, hsid, hsn]⟩
    obtain ⟨msg, hres⟩ := hres
    exact ⟨⟨msg, hres⟩, by unfold reserveLedger; rw [hres]⟩

theorem C4_normal_admission_witness :
    pyStrip "2025-10-18" ≠ "" ∧
    get_schedule_for [⟨"2025-10-18", "10:00", "A"⟩] (pyStrip "2025-10-18")
      = some ⟨"2025-10-18", "10:00", "A"⟩ ∧
    reserveLedger "normal" false [⟨"2025-10-18", "10:00", "A"⟩] [] none
      ⟨some "2025-10-18", some "20413", some "김", none, none, none, none, none⟩ "T"
      = [] ++ [⟨"125101820413", "normal", none, none, "2025-10-18", "10:00", "A", none, none,
          none, none, none, some "20413", some "김", "approved", "T"⟩] := by
  refine ⟨by decide, by decide, ?_⟩
  have h := (C4_normal_admission false [⟨"2025-10-18", "10:00", "A"⟩] [] none
    ⟨some "2025-10-18", some "20413", some "김", none, none, none, none, none⟩ "T"
    ⟨"2025-10-18", "10:00", "A"⟩ (by decide) (by decide)).1 ⟨by decide, by decide⟩
  obtain ⟨tk, hadm, _, _, hled⟩ := h
  rw [hled]
  have : tk = ⟨"125101820413", "normal", none, none, "2025-10-18", "10:00", "A", none, none,
      none, none, none, some "20413", some "김", "approved", "T"⟩ := by
    have h2 : reserve "normal" false [⟨"2025-10-18", "10:00", "A"⟩] [] none
        ⟨some "2025-10-18", some "20413", some "김", none, none, none, none, none⟩ "T"
        = .admitted ⟨"125101820413", "normal", none, none, "2025-10-18", "10:00", "A", none,
            none, none, none, none, some "20413", some "김", "approved", "T"⟩ := by decide
    rw [h2] at hadm
    exact (ReserveOutcome.admitted.injEq _ _).mp hadm.symm
  rw [this]

/-- C5: a booking POST for a date with no matching schedule row is rejected
with a validation flash — whatever the booking type — and no ticket row is
inserted. -/
theorem C5_unknown_date_rejected (rtypeRaw : String) (teacherAuth : Bool)
    (schedule : List Sched) (ledger : List Ticket) (movie : Option Movie) (form : Form)
    (now : String)
    (htype : pyLower rtypeRaw ∈ BOOK_TYPES.map pyLower)
    (hauth : pyLower rtypeRaw = "teacher" → teacherAuth = true)
    (hdate : get_schedule_for schedule (pyStrip (form.date.getD "")) = none) :
    (∃ msg, reserve rtypeRaw teacherAuth schedule ledger movie form now = .rejected msg) ∧
    reserveLedger rtypeRaw teacherAuth schedule ledger movie form now = ledger := by
  have hres : ∃ msg, reserve rtypeRaw teacherAuth schedule ledger movie form now
      = .rejected msg := by
    have hteach : ¬(pyLower rtypeRaw = "teacher" ∧ ¬teacherAuth) := by
      rintro ⟨ht, hna⟩
      rw [hauth ht] at hna
      exact hna rfl
    unfold reserve
    rw [if_neg (by simpa using htype), if_neg hteach]
    by_cases hemp : schedule.isEmpty
    · rw [if_pos hemp]
      exact ⟨_, rfl⟩
    · rw [if_neg hemp]
      by_cases hd : pyStrip (form.date.getD "") = ""
      · rw [if_pos hd]
        exact ⟨_, rfl⟩
      · rw [if_neg hd, hdate]
        exact ⟨_, rfl⟩
  obtain ⟨msg, hres⟩ := hres
  exact ⟨⟨msg, hres⟩, by unfold reserveLedger; rw [hres]⟩

theorem C5_unknown_date_rejected_witness :
    pyLower "group" ∈ BOOK_TYPES.map pyLower ∧
    get_schedule_for [⟨"2025-10-18", "10:00", "A"⟩] (pyStrip "2025-12-25") = none ∧
    reserveLedger "group" false [⟨"2025-10-18", "10:00", "A"⟩] [] none
      ⟨some "2025-12-25", none, none, some "g", some "3", some "a,b", none, none⟩ "T" = [] := by
  refine ⟨by decide, by decide, ?_⟩
  exact (C5_unknown_date_rejected "group" false [⟨"2025-10-18", "10:00", "A"⟩] [] none
    ⟨some "2025-12-25", none, none, some "g", some "3", some "a,b", none, none⟩ "T"
    (by decide) (by decide) (by decide)).2

/-- C2 counterexample: a group booking on a scheduled date whose member list is
empty — so the size computed the spec's way is `1 + 0 = 1 < 2` — is NOT
rejected: it is admitted with status `pending`, a ledger row is created, and
the stored `group_size` is the form value `5`, not `1 + member_count`. -/
theorem C2_group_size_counterexample :
    reserve "group" false [⟨"2025-10-18", "10:00", "A"⟩] [] none
      ⟨some "2025-10-18", none, none, some "", some "5", some "", none, none⟩ "T"
      = .admitted ⟨"2251018", "group", none, none, "2025-10-18", "10:00", "A", some "",
          some 5, none, none, some "", some "", some "", "pending", "T"⟩ ∧
    reserveLedger "group" false [⟨"2025-10-18", "10:00", "A"⟩] [] none
      ⟨some "2025-10-18", none, none, some "", some "5", some "", none, none⟩ "T"
      = [⟨"2251018", "group", none, none, "2025-10-18", "10:00", "A", some "",
          some 5, none, none, some "", some "", some "", "pending", "T"⟩] ∧
    1 + (uniqFirstAux [] (memberParts "")).length < 2 ∧
    (5 : Int) ≠ 1 + (uniqFirstAux [] (memberParts "")).length := by decide

/-- C2 amended: the stored `group_size` of a group booking is the integer
parsed from the submitted `group_size` field (`0` when absent or unparseable),
independent of the member list; no minimum-size validation exists, so every
group booking on a scheduled date is admitted with status `pending` and one
row is appended. -/
theorem C2_group_admission_amended (teacherAuth : Bool) (schedule : List Sched)
    (ledger : List Ticket) (movie : Option Movie) (form : Form) (now : String) (sche : Sched)
    (hd : pyStrip (form.date.getD "") ≠ "")
    (hs : get_schedule_for schedule (pyStrip (form.date.getD "")) = some sche) :
    ∃ tk, reserve "group" teacherAuth schedule ledger movie form now = .admitted tk ∧
      tk.status = "pending" ∧
      tk.group_size = some ((pyInt (form.group_size.getD "0")).getD 0) ∧
      tk.member_names = some (normalize_member_names (form.member_names.getD "")) ∧
      reserveLedger "group" teacherAuth schedule ledger movie form now = ledger ++ [tk] := by
  have hlow : pyLower "group" = "group" := by decide
  have hne := get_schedule_for_ne_nil hs
  have hres : reserve "group" teacherAuth schedule ledger movie form now = .admitted
      { id := make_ticket_id "group" (pyStrip (form.date.getD ""))
          (some (pyStrip (form.student_id.getD ""))) (ledger.map Ticket.id),
        type := "group",
        movie_id := movie.map Movie.id, movie_title := movie.map Movie.title,
        date := pyStrip (form.date.getD ""), time := sche.time, hall := sche.hall,
        group_name := some (pyStrip (form.group_name.getD "")),
        group_size := some ((pyInt (form.group_size.getD "0")).getD 0),
        teacher_name := none, class_info := none,
        member_names := some (normalize_member_names (form.member_names.getD "")),
        student_id := some (pyStrip (form.student_id.getD "")),
        student_name := some (pyStrip (form.student_name.getD "")),
        status := "pending", created_at := now } := by
    simp [reserve, BOOK_TYPES, hlow, hne, hd, hs]
  exact ⟨_, hres, rfl, rfl, rfl, by unfold reserveLedger; rw [hres]⟩

theorem C2_group_admission_amended_witness :
    pyStrip "2025-10-18" ≠ "" ∧
    get_schedule_for [⟨"2025-10-18", "10:00", "A"⟩] (pyStrip "2025-10-18")
      = some ⟨"2025-10-18", "10:00", "A"⟩ ∧
    ∃ tk, reserve "group" false [⟨"2025-10-18", "10:00", "A"⟩] [] none
      ⟨some "2025-10-18", none, none, some "", some "5", some "", none, none⟩ "T"
      = .admitted tk ∧ tk.status = "pending" ∧ tk.group_size = some 5 := by
  refine ⟨by decide, by decide, ?_⟩
  obtain ⟨tk, hadm, hst, hsz, _, _⟩ := C2_group_admission_amended false
    [⟨"2025-10-18", "10:00", "A"⟩] [] none
    ⟨some "2025-10-18", none, none, some "", some "5", some "", none, none⟩ "T"
    ⟨"2025-10-18", "10:00", "A"⟩ (by decide) (by decide)
  refine ⟨tk, hadm, hst, ?_⟩
  rw [hsz]
  decide

/-! ### Lemmas about `normalize_member_names` -/

theorem uniqFirstAux_mem (x : String) :
    ∀ (l seen : List String), x ∈ uniqFirstAux seen l ↔ x ∈ l ∧ x ∉ seen := by
  intro l
  induction l with
  | nil => intro seen; simp [uniqFirstAux]
  | cons a rest ih =>
    intro seen
    by_cases ha : a ∈ seen
    · rw [uniqFirstAux, if_pos ha, ih]
      simp only [List.mem_cons]
      constructor
      · rintro ⟨hx, hns⟩
        exact ⟨Or.inr hx, hns⟩
      · rintro ⟨rfl | hx, hns⟩
        · exact absurd ha hns
        · exact ⟨hx, hns⟩
    · rw [uniqFirstAux, if_neg ha]
      simp only [List.mem_cons, ih, List.mem_cons]
      constructor
      · rintro (rfl | ⟨hx, hns⟩)
        · exact ⟨Or.inl rfl, ha⟩
        · exact ⟨Or.inr hx, fun hxs => hns (Or.inr hxs)⟩
      · rintro ⟨rfl | hx, hns⟩
        · exact Or.inl rfl
        · by_cases hxa : x = a
          · exact Or.inl hxa
          · exact Or.inr ⟨hx, fun h => h.elim hxa hns⟩

theorem uniqFirstAux_nodup : ∀ (l seen : List String), (uniqFirstAux seen l).Nodup := by
  intro l
  induction l with
  | nil => intro seen; simp [uniqFirstAux]
  | cons a rest ih =>
    intro seen
    by_cases ha : a ∈ seen
    · rw [uniqFirstAux, if_pos ha]
      exact ih seen
    · rw [uniqFirstAux, if_neg ha]
      refine List.nodup_cons.mpr ⟨?_, ih (a :: seen)⟩
      intro hmem
      rw [uniqFirstAux_mem] at hmem
      exact hmem.2 (List.mem_cons_self a seen)

theorem uniqFirstAux_sublist : ∀ (l seen : List String), (uniqFirstAux seen l).Sublist l := by
  intro l
  induction l with
  | nil => intro seen; simp [uniqFirstAux]
  | cons a rest ih =>
    intro seen
    by_cases ha : a ∈ seen
    · rw [uniqFirstAux, if_pos ha]
      exact (ih seen).cons a
    · rw [uniqFirstAux, if_neg ha]
      exact (ih (a :: seen)).cons₂ a

theorem dropWhile_head_false (p : Char → Bool) :
    ∀ (l : List Char) (c : Char), (l.dropWhile p).head? = some c → p c = false := by
  intro l
  induction l with
  | nil => intro c h; simp [List.dropWhile] at h
  | cons a rest ih =>
    intro c h
    rw [List.dropWhile_cons] at h
    by_cases hp : p a
    · rw [if_pos hp] at h
      exact ih c h
    · rw [if_neg hp] at h
      simp only [List.head?_cons, Option.some.injEq] at h
      subst h
      simpa using hp

theorem dropTrail_getLast_false (p : Char → Bool) :
    ∀ (l : List Char) (c : Char), (dropTrail p l).getLast? = some c → p c = false := by
  intro l
  induction l with
  | nil => intro c h; simp [dropTrail] at h
  | cons a rest ih =>
    intro c h
    rw [dropTrail] at h
    by_cases hc : dropTrail p rest = [] ∧ p a
    · rw [if_pos hc] at h
      simp at h
    · rw [if_neg hc] at h
      rcases hr : dropTrail p rest with _ | ⟨b, rest2⟩
      · rw [hr] at h
        simp only [List.getLast?_singleton, Option.some.injEq] at h
        subst h
        have hpa : ¬ p a := fun hp => hc ⟨hr, hp⟩
        simpa using hpa
      · rw [hr, List.getLast?_cons_cons] at h
        exact ih c (by rw [hr]; exact h)

theorem dropTrail_head? (p : Char → Bool) :
    ∀ l : List Char, (dropTrail p l).head? = l.head? ∨ dropTrail p l = [] := by
  intro l
  cases l with
  | nil => right; rfl
  | cons a rest =>
    rw [dropTrail]
    by_cases hc : dropTrail p rest = [] ∧ p a
    · right; rw [if_pos hc]
    · left; rw [if_neg hc]; rfl

theorem pyStrip_head_false (s : String) (c : Char)
    (h : (pyStrip s).data.head? = some c) : isPySpace c = false := by
  unfold pyStrip at h
  rcases dropTrail_head? isPySpace (s.data.dropWhile isPySpace) with h2 | h2
  · rw [h2] at h
    exact dropWhile_head_false isPySpace s.data c h
  · rw [h2] at h
    simp at h

theorem pyStrip_getLast_false (s : String) (c : Char)
    (h : (pyStrip s).data.getLast? = some c) : isPySpace c = false :=
  dropTrail_getLast_false isPySpace _ c h

theorem memberParts_spec (raw : String) (x : String) (hx : x ∈ memberParts raw) :
    x ≠ "" ∧ ∃ piece, x = pyStrip piece := by
  unfold memberParts at hx
  rw [List.mem_filter] at hx
  obtain ⟨hmem, hne⟩ := hx
  rw [List.mem_flatten] at hmem
  obtain ⟨inner, hinner, hxin⟩ := hmem
  rw [List.mem_map] at hinner
  obtain ⟨line, _, rfl⟩ := hinner
  rw [List.mem_map] at hxin
  obtain ⟨piece, _, rfl⟩ := hxin
  exact ⟨by simpa using hne, piece, rfl⟩

/-- C8 counterexample: the source splits only on newlines and commas, not on
blanks — `"a b"` stays one single member name containing a space, while the
claim's comma/whitespace/newline splitting would give the two members `a,b`. -/
theorem C8_members_counterexample :
    normalize_member_names "a b" = "a b" ∧ claimNormalize "a b" = "a,b" ∧
    ("a b" : String) ≠ "a,b" := by decide

/-- C8 amended: normalization splits the input on newline and comma separators
only (carriage returns are removed first; blanks and tabs are NOT separators),
strips each resulting name, drops empties, and removes duplicates keeping first
occurrences; so the joined output enumerates pairwise distinct names, in first
occurrence order, each non-empty and without surrounding whitespace. -/
theorem C8_members_amended (raw : String) :
    normalize_member_names raw = joinComma (uniqFirstAux [] (memberParts raw)) ∧
    (uniqFirstAux [] (memberParts raw)).Nodup ∧
    (uniqFirstAux [] (memberParts raw)).Sublist (memberParts raw) ∧
    (∀ x, x ∈ uniqFirstAux [] (memberParts raw) ↔ x ∈ memberParts raw) ∧
    (∀ x ∈ uniqFirstAux [] (memberParts raw), x ≠ "" ∧
      (∀ c, x.data.head? = some c → isPySpace c = false) ∧
      (∀ c, x.data.getLast? = some c → isPySpace c = false)) := by
  refine ⟨?_, uniqFirstAux_nodup (memberParts raw) [], uniqFirstAux_sublist (memberParts raw) [],
    ?_, ?_⟩
  · by_cases h : raw = ""
    · subst h; decide
    · rw [normalize_member_names, if_neg h]
  · intro x
    rw [uniqFirstAux_mem]
    simp
  · intro x hx
    rw [uniqFirstAux_mem] at hx
    obtain ⟨hne, ⟨piece, rfl⟩⟩ := memberParts_spec raw x hx.1
    exact ⟨hne, fun c hc => pyStrip_head_false piece c hc,
      fun c hc => pyStrip_getLast_false piece c hc⟩

theorem C8_members_amended_witness :
    normalize_member_names "홍길동, 김철수\n이영희,홍길동"
      = joinComma (uniqFirstAux [] (memberParts "홍길동, 김철수\n이영희,홍길동")) ∧
    (uniqFirstAux [] (memberParts "홍길동, 김철수\n이영희,홍길동")).Nodup ∧
    normalize_member_names "홍길동, 김철수\n이영희,홍길동" = "홍길동,김철수,이영희" := by
  have h := C8_members_amended "홍길동, 김철수\n이영희,홍길동"
  exact ⟨h.1, h.2.1, by decide⟩

end Cinema
